import Mathlib

/-!
Shallow embedding of the ToDoApp resolver layer (src/src/index.js).

The Mongo document store is modelled as three lists of records; `ObjectId`
values are modelled as `Nat`.  Each resolver becomes a pure function: the
per-request context `{ db, user }` is passed explicitly, mutations return the
new store, and a thrown `Error` becomes `Except.error`.  External primitives
(bcrypt hashing/comparison, jwt signing/verification, `new Date()`, the
store-assigned `_id` of an insert) are passed in as parameters, matching the
spec's treatment of them as opaque capabilities.
-/

/-- A stored user document: `signUp` spreads the input and replaces the
password with its hash; the driver assigns `_id` on insert. -/
structure UserRec where
  _id : Nat
  name : String
  email : String
  avatar : Option String
  password : String
deriving Repr, DecidableEq

/-- A stored task-list document, as created by `createTaskList`. -/
structure TaskListRec where
  _id : Nat
  title : String
  createdAt : String
  userIds : List Nat
deriving Repr, DecidableEq

/-- A stored to-do document.  `createToDo` inserts no `id` field, but the
`$set: data` of `updateToDo` can add one; it is modelled as an `Option`. -/
structure ToDoRec where
  _id : Nat
  content : String
  isCompleted : Bool
  taskListId : Nat
  id : Option Nat
deriving Repr, DecidableEq

/-- The document store: the `Users`, `TaskList` and `ToDo` collections. -/
structure DB where
  users : List UserRec
  taskLists : List TaskListRec
  todos : List ToDoRec
deriving Repr, DecidableEq

/-- The errors thrown by the resolvers: the authentication guard message,
the invalid-credentials message of `signIn`, and the duplicate-member
conflict message of `addUserToTaskList`. -/
inductive Err where
  | authenticationError
  | invalidCredentials
  | conflict
deriving Repr, DecidableEq

/-- Mongo's `updateOne` updates the first matching document only. -/
def updateFirst (p : α → Bool) (f : α → α) : List α → List α
  | [] => []
  | x :: xs => if p x then f x :: xs else x :: updateFirst p f xs

/-- The payload `jwt.sign({ id: user._id }, ...)` embeds in the token; a
malformed token may lack the `id` claim (`!tokenData?.id`). -/
structure TokenData where
  id : Option Nat
deriving Repr, DecidableEq

/-- Function `getToken`: signs a token whose claim carries the user's `_id`. -/
def getToken (uid : Nat) : TokenData := { id := some uid }

/-- The ways `jwt.verify` can throw. -/
inductive VerifyError where
  | badSignature
  | malformed
  | expired
deriving Repr, DecidableEq

/-- Function `getUserFromToken(token, db)`: a `null` token yields `null` user; a present
token is verified (`jwt.verify` throws are NOT caught, hence `Except`); a
token without an `id` claim yields `null`; otherwise the user is looked up
by `_id` and the `findOne` result (possibly `null`) is returned. -/
def getUserFromToken (db : DB) (verify : String → Except VerifyError TokenData)
    (token : Option String) : Except VerifyError (Option UserRec) :=
  match token with
  | none => .ok none
  | some t =>
    match verify t with
    | .error e => .error e
    | .ok tokenData =>
      match tokenData.id with
      | none => .ok none
      | some uid => .ok (db.users.find? (fun u => u._id == uid))

/-- The per-request context built by the Apollo `context` callback. -/
structure Context where
  db : DB
  user : Option UserRec
deriving Repr, DecidableEq

/-- The `context` callback: resolves the identity from the authorization
header and packs `{ db, user }`; an uncaught `jwt.verify` failure makes the
whole request fail before any resolver runs. -/
def makeContext (db : DB) (verify : String → Except VerifyError TokenData)
    (authorization : Option String) : Except VerifyError Context :=
  match getUserFromToken db verify authorization with
  | .error e => .error e
  | .ok u => .ok { db := db, user := u }

/-- Handler `Query.myTaskLists`: requires identity; returns the task lists whose
`userIds` array contains the requester's `_id`. -/
def myTaskLists (db : DB) (user : Option UserRec) :
    Except Err (List TaskListRec) :=
  match user with
  | none => .error .authenticationError
  | some u => .ok (db.taskLists.filter (fun tl => tl.userIds.contains u._id))

/-- Handler `Query.getTaskList`: requires identity; `findOne` by `_id`, with no
membership check. -/
def getTaskList (db : DB) (user : Option UserRec) (id : Nat) :
    Except Err (Option TaskListRec) :=
  match user with
  | none => .error .authenticationError
  | some _ => .ok (db.taskLists.find? (fun tl => tl._id == id))

/-- Handler `Mutation.signUp`: hashes the password, inserts the user record, and
returns `{ user, token }` — the returned `user` is the stored record itself,
hashed password included. -/
def signUp (db : DB) (hash : String → String) (newId : Nat)
    (email password name : String) (avatar : Option String) :
    (UserRec × TokenData) × DB :=
  let user : UserRec :=
    { _id := newId, name := name, email := email, avatar := avatar,
      password := hash password }
  ((user, getToken user._id), { db with users := db.users ++ [user] })

/-- Handler `Mutation.signIn`: a `findOne` by email; throws `Invalid credentials!` when
there is no match or `bcrypt.compareSync` rejects; otherwise returns
`{ user, token }`. -/
def signIn (db : DB) (compare : String → String → Bool)
    (email password : String) : Except Err (UserRec × TokenData) :=
  match db.users.find? (fun u => u.email == email) with
  | none => .error .invalidCredentials
  | some user =>
    if compare password user.password then .ok (user, getToken user._id)
    else .error .invalidCredentials

/-- Handler `Mutation.createTaskList`: requires identity; inserts a list with the
creator as sole member and the server timestamp, and returns it. -/
def createTaskList (db : DB) (user : Option UserRec)
    (title createdAt : String) (newId : Nat) :
    Except Err (TaskListRec × DB) :=
  match user with
  | none => .error .authenticationError
  | some u =>
    let newTaskList : TaskListRec :=
      { _id := newId, title := title, createdAt := createdAt,
        userIds := [u._id] }
    .ok (newTaskList, { db with taskLists := db.taskLists ++ [newTaskList] })

/-- Handler `Mutation.updateTaskList`: requires identity; `$set`s only the title of
the matching list, then returns the post-update `findOne`. -/
def updateTaskList (db : DB) (user : Option UserRec) (id : Nat)
    (title : String) : Except Err (Option TaskListRec × DB) :=
  match user with
  | none => .error .authenticationError
  | some _ =>
    let taskLists2 :=
      updateFirst (fun tl => tl._id == id)
        (fun tl => { tl with title := title }) db.taskLists
    let db2 : DB := { db with taskLists := taskLists2 }
    .ok (db2.taskLists.find? (fun tl => tl._id == id), db2)

/-- Handler `Mutation.addUserToTaskList`: requires identity; loads the list (`null`
result when absent); throws a conflict when `userId` is already a member;
otherwise `$push`es the member and returns the locally updated list. -/
def addUserToTaskList (db : DB) (user : Option UserRec)
    (taskListId userId : Nat) : Except Err (Option TaskListRec × DB) :=
  match user with
  | none => .error .authenticationError
  | some _ =>
    match db.taskLists.find? (fun tl => tl._id == taskListId) with
    | none => .ok (none, db)
    | some taskList =>
      if (taskList.userIds.find? (fun dbId => dbId == userId)).isSome then
        .error .conflict
      else
        let taskLists2 :=
          updateFirst (fun tl => tl._id == taskListId)
            (fun tl => { tl with userIds := tl.userIds ++ [userId] })
            db.taskLists
        let db2 : DB := { db with taskLists := taskLists2 }
        .ok (some { taskList with userIds := taskList.userIds ++ [userId] },
             db2)

/-- Handler `Mutation.deleteTaskList`: requires identity; `remove`s every list
matching the `_id` (no existence check, no cascade) and reports `true`. -/
def deleteTaskList (db : DB) (user : Option UserRec) (id : Nat) :
    Except Err (Bool × DB) :=
  match user with
  | none => .error .authenticationError
  | some _ =>
    let taskLists2 := db.taskLists.filter (fun tl => tl._id != id)
    .ok (true, { db with taskLists := taskLists2 })

/-- Handler `Mutation.createToDo`: requires identity; inserts a to-do with
`isCompleted = false` under the given list reference (no existence check). -/
def createToDo (db : DB) (user : Option UserRec) (content : String)
    (taskListId : Nat) (newId : Nat) : Except Err (ToDoRec × DB) :=
  match user with
  | none => .error .authenticationError
  | some _ =>
    let newToDo : ToDoRec :=
      { _id := newId, content := content, isCompleted := false,
        taskListId := taskListId, id := none }
    .ok (newToDo, { db with todos := db.todos ++ [newToDo] })

/-- The argument object of `updateToDo`: `id` and `isCompleted` are
mandatory, `content` may be absent. -/
structure UpdateToDoData where
  id : Nat
  content : Option String
  isCompleted : Bool
deriving Repr, DecidableEq

/-- The effect of `$set: data` on a matching to-do document: every field of
the argument object is written, including the `id` field itself; fields not
in the argument object are untouched. -/
def setToDoData (data : UpdateToDoData) (t : ToDoRec) : ToDoRec :=
  { t with
    id := some data.id,
    content := match data.content with
               | some c => c
               | none => t.content,
    isCompleted := data.isCompleted }

/-- Handler `Mutation.updateToDo`: requires identity; `$set`s the whole argument
object on the matching to-do, then returns the post-update `findOne`. -/
def updateToDo (db : DB) (user : Option UserRec) (data : UpdateToDoData) :
    Except Err (Option ToDoRec × DB) :=
  match user with
  | none => .error .authenticationError
  | some _ =>
    let todos2 :=
      updateFirst (fun t => t._id == data.id) (setToDoData data) db.todos
    let db2 : DB := { db with todos := todos2 }
    .ok (db2.todos.find? (fun t => t._id == data.id), db2)

/-- Handler `Mutation.deleteToDo`: requires identity; `remove`s the matching to-do
unconditionally and reports `true`. -/
def deleteToDo (db : DB) (user : Option UserRec) (id : Nat) :
    Except Err (Bool × DB) :=
  match user with
  | none => .error .authenticationError
  | some _ =>
    .ok (true, { db with todos := db.todos.filter (fun t => t._id != id) })

/-- Resolver `TaskList.progress`: all to-dos referencing the list; `0`
when there are none, else `100 * completed.length / todos.length`.  The
JavaScript number result is modelled as an exact rational — the resolver
applies no rounding. -/
def taskListProgress (db : DB) (listId : Nat) : ℚ :=
  let todos := db.todos.filter (fun t => t.taskListId == listId)
  let completed := todos.filter (fun t => t.isCompleted)
  if todos.length == 0 then 0
  else 100 * (completed.length : ℚ) / (todos.length : ℚ)

/-- Resolver `TaskList.todos`. -/
def taskListToDos (db : DB) (listId : Nat) : List ToDoRec :=
  db.todos.filter (fun t => t.taskListId == listId)

/-- Resolver `ToDo.taskList`: `findOne` of the owning list by the
stored reference; `none` when the list was deleted. -/
def toDoTaskList (db : DB) (t : ToDoRec) : Option TaskListRec :=
  db.taskLists.find? (fun tl => tl._id == t.taskListId)

/-! ### Helper lemmas -/

theorem find?_updateFirst {α : Type} (p : α → Bool) (f : α → α)
    (hpf : ∀ a, p (f a) = p a) (l : List α) :
    (updateFirst p f l).find? p = (l.find? p).map f := by
  induction l with
  | nil => rfl
  | cons x xs ih =>
    by_cases hx : p x
    · simp [updateFirst, hx, List.find?_cons_of_pos, hpf]
    · simp only [updateFirst, hx]
      rw [if_neg (by simp [hx])]
      simp [List.find?_cons_of_neg, hx, ih]

theorem mem_updateFirst {α : Type} {p : α → Bool} {f : α → α} {l : List α}
    {y : α} (hy : y ∈ updateFirst p f l) : y ∈ l ∨ ∃ x ∈ l, y = f x := by
  induction l with
  | nil => simp [updateFirst] at hy
  | cons x xs ih =>
    simp only [updateFirst] at hy
    by_cases hx : p x
    · rw [if_pos hx] at hy
      rcases List.mem_cons.mp hy with h | h
      · exact Or.inr ⟨x, List.mem_cons_self x xs, h⟩
      · exact Or.inl (List.mem_cons_of_mem x h)
    · rw [if_neg hx] at hy
      rcases List.mem_cons.mp hy with h | h
      · exact Or.inl (h ▸ List.mem_cons_self x xs)
      · rcases ih h with h2 | ⟨z, hz, hyz⟩
        · exact Or.inl (List.mem_cons_of_mem x h2)
        · exact Or.inr ⟨z, List.mem_cons_of_mem x hz, hyz⟩

/-! ### Claims -/

/-- C1: every protected operation (`myTaskLists`, `getTaskList`,
`createTaskList`, `updateTaskList`, `addUserToTaskList`, `deleteTaskList`,
`createToDo`, `updateToDo`, `deleteToDo`) invoked with `user = none` fails
with the authentication error; the error result carries no updated store, so
no read or write of the store happens first. -/
theorem protected_ops_auth_guard (db : DB) (id userId taskListId newId : Nat)
    (title createdAt content : String) (data : UpdateToDoData) :
    myTaskLists db none = .error .authenticationError ∧
    getTaskList db none id = .error .authenticationError ∧
    createTaskList db none title createdAt newId =
      .error .authenticationError ∧
    updateTaskList db none id title = .error .authenticationError ∧
    addUserToTaskList db none taskListId userId =
      .error .authenticationError ∧
    deleteTaskList db none id = .error .authenticationError ∧
    createToDo db none content taskListId newId =
      .error .authenticationError ∧
    updateToDo db none data = .error .authenticationError ∧
    deleteToDo db none id = .error .authenticationError :=
  ⟨rfl, rfl, rfl, rfl, rfl, rfl, rfl, rfl, rfl⟩

/-- A concrete store with one task list (`_id = 1`) and four to-dos
referencing it, exactly one of which is completed. -/
def dbFour : DB :=
  { users := [],
    taskLists := [{ _id := 1, title := "groceries",
                    createdAt := "2024-01-01T00:00:00.000Z",
                    userIds := [7] }],
    todos :=
      [{ _id := 10, content := "milk", isCompleted := true,
         taskListId := 1, id := none },
       { _id := 11, content := "eggs", isCompleted := false,
         taskListId := 1, id := none },
       { _id := 12, content := "bread", isCompleted := false,
         taskListId := 1, id := none },
       { _id := 13, content := "butter", isCompleted := false,
         taskListId := 1, id := none }] }

/-- C2: resolver `TaskList.progress` is `0` when no to-do references the list, and
otherwise exactly `100 × completed / total` with no rounding; it always lies
in `[0, 100]`, and on a list with 4 to-dos of which 1 is completed it equals
`25`. -/
theorem taskList_progress_correct (db : DB) (listId : Nat) :
    ((db.todos.filter (fun t => t.taskListId == listId)).length = 0 →
      taskListProgress db listId = 0) ∧
    ((db.todos.filter (fun t => t.taskListId == listId)).length ≠ 0 →
      taskListProgress db listId =
        100 * (((db.todos.filter (fun t => t.taskListId == listId)).filter
            (fun t => t.isCompleted)).length : ℚ) /
          ((db.todos.filter (fun t => t.taskListId == listId)).length : ℚ)) ∧
    0 ≤ taskListProgress db listId ∧
    taskListProgress db listId ≤ 100 ∧
    taskListProgress dbFour 1 = 25 := by
  have hle : ((db.todos.filter (fun t => t.taskListId == listId)).filter
      (fun t => t.isCompleted)).length ≤
      (db.todos.filter (fun t => t.taskListId == listId)).length :=
    List.length_filter_le _ _
  refine ⟨fun h0 => by simp [taskListProgress, h0],
          fun h0 => by simp [taskListProgress, h0], ?_, ?_,
          by norm_num [taskListProgress, dbFour, List.filter]⟩
  · by_cases h0 : (db.todos.filter (fun t => t.taskListId == listId)).length = 0
    · simp [taskListProgress, h0]
    · simp only [taskListProgress, beq_iff_eq, h0, if_false]
      positivity
  · by_cases h0 : (db.todos.filter (fun t => t.taskListId == listId)).length = 0
    · simp [taskListProgress, h0]
    · simp only [taskListProgress, beq_iff_eq, h0, if_false]
      have ht : (0 : ℚ) <
          ((db.todos.filter (fun t => t.taskListId == listId)).length : ℚ) := by
        exact_mod_cast Nat.pos_of_ne_zero h0
      rw [div_le_iff₀ ht]
      have : (((db.todos.filter (fun t => t.taskListId == listId)).filter
          (fun t => t.isCompleted)).length : ℚ) ≤
          ((db.todos.filter (fun t => t.taskListId == listId)).length : ℚ) := by
        exact_mod_cast hle
      linarith

/-- C2 witness: the theorem applied to the concrete store `dbFour`, at a list
with no to-dos and at the list with four to-dos. -/
theorem taskList_progress_correct_witness :
    taskListProgress dbFour 2 = 0 ∧
    taskListProgress dbFour 1 =
      100 * (((dbFour.todos.filter (fun t => t.taskListId == 1)).filter
          (fun t => t.isCompleted)).length : ℚ) /
        ((dbFour.todos.filter (fun t => t.taskListId == 1)).length : ℚ) :=
  ⟨(taskList_progress_correct dbFour 2).1 (by decide),
   (taskList_progress_correct dbFour 1).2.1 (by decide)⟩

/-- C3: handler `addUserToTaskList` with an authenticated identity returns `null`
(and leaves the store untouched) when no list has the given `_id`; fails
with the conflict error when the target user is already a member; and
otherwise returns the list with the member appended, after which an
identical second call fails with the conflict error. -/
theorem addUserToTaskList_correct (db : DB) (u : UserRec)
    (taskListId userId : Nat) :
    (db.taskLists.find? (fun tl => tl._id == taskListId) = none →
      addUserToTaskList db (some u) taskListId userId = .ok (none, db)) ∧
    (∀ tl, db.taskLists.find? (fun tl => tl._id == taskListId) = some tl →
      userId ∈ tl.userIds →
      addUserToTaskList db (some u) taskListId userId = .error .conflict) ∧
    (∀ tl, db.taskLists.find? (fun tl => tl._id == taskListId) = some tl →
      userId ∉ tl.userIds →
      ∃ db2, addUserToTaskList db (some u) taskListId userId =
          .ok (some { tl with userIds := tl.userIds ++ [userId] }, db2) ∧
        addUserToTaskList db2 (some u) taskListId userId =
          .error .conflict) := by
  refine ⟨fun hfind => by simp [addUserToTaskList, hfind], ?_, ?_⟩
  · intro tl hfind hmem
    have hsome : (tl.userIds.find? (fun dbId => dbId == userId)).isSome := by
      rw [List.find?_isSome]
      exact ⟨userId, hmem, by simp⟩
    simp [addUserToTaskList, hfind, hsome]
  · intro tl hfind hmem
    have hnot : ¬ (tl.userIds.find? (fun dbId => dbId == userId)).isSome := by
      rw [List.find?_isSome]
      rintro ⟨x, hx, hbeq⟩
      have hxe : x = userId := by simpa using hbeq
      exact hmem (hxe ▸ hx)
    refine ⟨{ db with taskLists := updateFirst (fun tl => tl._id == taskListId) (fun tl => { tl with userIds := tl.userIds ++ [userId] }) db.taskLists }, ?_, ?_⟩
    · simp [addUserToTaskList, hfind, hnot]
    · have hfu := find?_updateFirst (fun tl : TaskListRec => tl._id == taskListId)
        (fun tl : TaskListRec => { tl with userIds := tl.userIds ++ [userId] })
        (fun a => rfl) db.taskLists
      rw [hfind] at hfu
      have hsome2 : (((tl.userIds ++ [userId]).find?
          (fun dbId => dbId == userId)).isSome) := by
        rw [List.find?_isSome]
        exact ⟨userId, by simp, by simp⟩
      simp [addUserToTaskList, hfu, hsome2]

/-- A member user of the concrete one-list store. -/
def uA : UserRec :=
  { _id := 7, name := "ann", email := "ann@example.com", avatar := none,
    password := "hA" }

/-- An authenticated user who is in no list's member set. -/
def uB : UserRec :=
  { _id := 9, name := "joe", email := "joe@example.com", avatar := none,
    password := "hB" }

/-- A concrete store with a single task list whose only member is `uA`. -/
def dbOneList : DB :=
  { users := [uA, uB],
    taskLists := [{ _id := 1, title := "chores", createdAt := "ts",
                    userIds := [7] }],
    todos := [] }

/-- C3 witness: on the concrete store, adding user 8 to list 1 succeeds and
then conflicts, and targeting the absent list 2 returns `null`. -/
theorem addUserToTaskList_correct_witness :
    (∃ db2, addUserToTaskList dbOneList (some uA) 1 8 =
        .ok (some { _id := 1, title := "chores", createdAt := "ts",
                    userIds := [7, 8] }, db2) ∧
      addUserToTaskList db2 (some uA) 1 8 = .error .conflict) ∧
    addUserToTaskList dbOneList (some uA) 2 8 = .ok (none, dbOneList) :=
  ⟨(addUserToTaskList_correct dbOneList uA 1 8).2.2
      ⟨1, "chores", "ts", [7]⟩ rfl (by decide),
   (addUserToTaskList_correct dbOneList uA 2 8).1 rfl⟩

/-- C4: handler `getTaskList` with any authenticated identity returns the `findOne`
result for the given `_id`, with no membership verification: even a
requester outside the list's member set receives the list. -/
theorem getTaskList_no_membership_check (db : DB) (u : UserRec) (id : Nat) :
    getTaskList db (some u) id =
      .ok (db.taskLists.find? (fun tl => tl._id == id)) ∧
    (∀ tl, db.taskLists.find? (fun tl => tl._id == id) = some tl →
      u._id ∉ tl.userIds → getTaskList db (some u) id = .ok (some tl)) :=
  ⟨rfl, fun tl hfind _ => by simp [getTaskList, hfind]⟩

/-- C4 witness: user `uB` (`_id = 9`) is not a member of list 1 of the concrete
store, yet fetches it. -/
theorem getTaskList_no_membership_check_witness :
    getTaskList dbOneList (some uB) 1 =
      .ok (some { _id := 1, title := "chores", createdAt := "ts",
                  userIds := [7] }) :=
  (getTaskList_no_membership_check dbOneList uB 1).2
    ⟨1, "chores", "ts", [7]⟩ rfl (by decide)

/-- C5: handler `signIn` fails with the invalid-credentials error exactly when the
email lookup finds no user or the hash comparison rejects the password; on
success it returns the found user and a token whose claim is that user's
`_id`. -/
theorem signIn_correct (db : DB) (compare : String → String → Bool)
    (email pw : String) :
    (signIn db compare email pw = .error .invalidCredentials ↔
      db.users.find? (fun user => user.email == email) = none ∨
      ∃ user, db.users.find? (fun user => user.email == email) = some user ∧
        compare pw user.password = false) ∧
    (∀ user, db.users.find? (fun user => user.email == email) = some user →
      compare pw user.password = true →
      signIn db compare email pw = .ok (user, getToken user._id) ∧
      (getToken user._id).id = some user._id) := by
  cases hfind : db.users.find? (fun user => user.email == email) with
  | none =>
    refine ⟨⟨fun _ => Or.inl rfl, fun _ => by simp [signIn, hfind]⟩, ?_⟩
    intro user hsome
    cases hsome
  | some u2 =>
    by_cases hcmp : compare pw u2.password = true
    · refine ⟨⟨fun h => ?_, fun h => ?_⟩, ?_⟩
      · simp [signIn, hfind, hcmp] at h
      · rcases h with h | ⟨u3, hu3, hc⟩
        · cases h
        · injection hu3 with he
          rw [← he] at hc
          simp [hcmp] at hc
      · intro user hsome hc
        injection hsome with he
        subst he
        exact ⟨by simp [signIn, hfind, hc], rfl⟩
    · have hfalse : compare pw u2.password = false := by simpa using hcmp
      refine ⟨⟨fun _ => Or.inr ⟨u2, rfl, hfalse⟩,
               fun _ => by simp [signIn, hfind, hfalse]⟩, ?_⟩
      intro user hsome hc
      injection hsome with he
      subst he
      simp [hc] at hfalse

/-- A hash comparison primitive for witnesses: the stored hash of `p` is
taken to be `p` itself. -/
def cmpEq : String → String → Bool := fun p h => p == h

/-- C5 witness: on the concrete store, `uA` signs in with the matching
password and gets back a token carrying `_id = 7`; signing in with a wrong
password fails with the invalid-credentials error. -/
theorem signIn_correct_witness :
    (signIn dbOneList cmpEq "ann@example.com" "hA" =
      .ok (uA, getToken 7) ∧ (getToken 7).id = some 7) ∧
    signIn dbOneList cmpEq "ann@example.com" "wrong" =
      .error .invalidCredentials :=
  ⟨(signIn_correct dbOneList cmpEq "ann@example.com" "hA").2 uA rfl rfl,
   ((signIn_correct dbOneList cmpEq "ann@example.com" "wrong").1).mpr
     (Or.inr ⟨uA, rfl, rfl⟩)⟩

/-- C6: the `user` payload returned by `signUp` is the stored record itself,
so its `password` field is exactly the stored credential hash — the hash is
exposed in the response rather than omitted. -/
theorem signUp_exposes_hash (db : DB) (hash : String → String) (newId : Nat)
    (email pw name : String) (avatar : Option String) :
    ((signUp db hash newId email pw name avatar).1.1).password = hash pw ∧
    (signUp db hash newId email pw name avatar).2.users =
      db.users ++ [(signUp db hash newId email pw name avatar).1.1] :=
  ⟨rfl, rfl⟩

/-- C7: the identity resolver yields `user = none` with no error when the
credential is absent or when the verified token's user id matches no stored
user, while a present credential whose verification throws is not caught:
the context construction itself fails, so no handler receives a context. -/
theorem identity_resolver_correct (db : DB)
    (verify : String → Except VerifyError TokenData) (t : String)
    (e : VerifyError) (td : TokenData) (uid : Nat) :
    makeContext db verify none = .ok { db := db, user := none } ∧
    (verify t = .ok td → td.id = some uid →
      db.users.find? (fun u => u._id == uid) = none →
      makeContext db verify (some t) = .ok { db := db, user := none }) ∧
    (verify t = .error e → makeContext db verify (some t) = .error e) := by
  refine ⟨rfl, ?_, ?_⟩
  · intro hv hid hfind
    simp [makeContext, getUserFromToken, hv, hid, hfind]
  · intro hv
    simp [makeContext, getUserFromToken, hv]

/-- A verification primitive for witnesses: accepts only the credential
`"good"`, as a token for the unknown user 42, and throws on anything else. -/
def verifyStub : String → Except VerifyError TokenData := fun s =>
  if s == "good" then .ok { id := some 42 } else .error .badSignature

/-- C7 witness: on the concrete store, a token for the unknown user 42
resolves to an anonymous context, and a bad token fails the request. -/
theorem identity_resolver_correct_witness :
    makeContext dbOneList verifyStub (some "good") =
      .ok { db := dbOneList, user := none } ∧
    makeContext dbOneList verifyStub (some "bad") =
      .error .badSignature :=
  ⟨(identity_resolver_correct dbOneList verifyStub "good" .badSignature
      ⟨some 42⟩ 42).2.1 rfl rfl rfl,
   (identity_resolver_correct dbOneList verifyStub "bad" .badSignature
      ⟨some 42⟩ 42).2.2 rfl⟩

/-- C8: handler `deleteTaskList` removes only task-list records: the to-do (and
user) collections are untouched, a to-do referencing the deleted list is
still found by its `_id` afterwards, and its `ToDo.taskList` field then
resolves to nothing. -/
theorem deleteTaskList_orphans_todos (db : DB) (u : UserRec) (id : Nat) :
    deleteTaskList db (some u) id =
      .ok (true, { db with taskLists := db.taskLists.filter (fun tl => tl._id != id) }) ∧
    (∀ db2, deleteTaskList db (some u) id = .ok (true, db2) →
      db2.todos = db.todos ∧
      db2.users = db.users ∧
      db2.taskLists = db.taskLists.filter (fun tl => tl._id != id) ∧
      (∀ tid, db2.todos.find? (fun t => t._id == tid) =
        db.todos.find? (fun t => t._id == tid)) ∧
      (∀ t : ToDoRec, t.taskListId = id → toDoTaskList db2 t = none)) := by
  refine ⟨rfl, ?_⟩
  intro db2 hdel
  simp only [deleteTaskList, Except.ok.injEq, Prod.mk.injEq, true_and] at hdel
  subst hdel
  refine ⟨rfl, rfl, rfl, fun tid => rfl, ?_⟩
  intro t ht
  rw [toDoTaskList, List.find?_eq_none]
  intro x hx
  simp only [List.mem_filter, bne_iff_ne, ne_eq] at hx
  simp [ht, hx.2]

/-- A concrete store with one list and one to-do referencing it. -/
def dbDel : DB :=
  { users := [],
    taskLists := [{ _id := 1, title := "l", createdAt := "ts",
                    userIds := [7] }],
    todos := [{ _id := 20, content := "x", isCompleted := false,
                taskListId := 1, id := none }] }

/-- The store after deleting list 1 from `dbDel`. -/
def dbDelAfter : DB :=
  { users := [], taskLists := [],
    todos := [{ _id := 20, content := "x", isCompleted := false,
                taskListId := 1, id := none }] }

/-- The orphaned to-do of `dbDel`. -/
def tdDel : ToDoRec :=
  { _id := 20, content := "x", isCompleted := false, taskListId := 1,
    id := none }

/-- C8 witness: after deleting list 1, to-do 20 is still found by `_id` and
its owning list resolves to nothing. -/
theorem deleteTaskList_orphans_todos_witness :
    dbDelAfter.todos.find? (fun t => t._id == 20) =
      dbDel.todos.find? (fun t => t._id == 20) ∧
    toDoTaskList dbDelAfter tdDel = none :=
  ⟨((deleteTaskList_orphans_todos dbDel uA 1).2 dbDelAfter rfl).2.2.2.1 20,
   ((deleteTaskList_orphans_todos dbDel uA 1).2 dbDelAfter rfl).2.2.2.2
     tdDel rfl⟩

/-- C10: handler `updateToDo` applies the whole argument object via `$set`, so the
stored (and returned) record gains an `id` field equal to the identifier
argument and takes the given `isCompleted` and (when present) `content`,
while `_id` and `taskListId` are unchanged. -/
theorem updateToDo_sets_whole_argument (db : DB) (u : UserRec)
    (data : UpdateToDoData) (t : ToDoRec)
    (hfind : db.todos.find? (fun x => x._id == data.id) = some t) :
    updateToDo db (some u) data =
      .ok (some (setToDoData data t), { db with todos := updateFirst (fun x => x._id == data.id) (setToDoData data) db.todos }) ∧
    (setToDoData data t).id = some data.id ∧
    (setToDoData data t).isCompleted = data.isCompleted ∧
    (∀ c, data.content = some c → (setToDoData data t).content = c) ∧
    (data.content = none → (setToDoData data t).content = t.content) ∧
    (setToDoData data t)._id = t._id ∧
    (setToDoData data t).taskListId = t.taskListId := by
  have hfu := find?_updateFirst (fun x : ToDoRec => x._id == data.id)
    (setToDoData data) (fun a => rfl) db.todos
  rw [hfind] at hfu
  refine ⟨by simp [updateToDo, hfu], rfl, rfl, ?_, ?_, rfl, rfl⟩
  · intro c hc
    simp [setToDoData, hc]
  · intro hc
    simp [setToDoData, hc]

/-- A concrete store with a single to-do under list 5. -/
def dbTd : DB :=
  { users := [], taskLists := [],
    todos := [{ _id := 30, content := "old", isCompleted := false,
                taskListId := 5, id := none }] }

/-- C10 witness: updating to-do 30 stores the new content and completion
flag, adds `id = 30`, and keeps `_id = 30` and `taskListId = 5`. -/
theorem updateToDo_sets_whole_argument_witness :
    updateToDo dbTd (some uA) ⟨30, some "new", true⟩ =
      .ok (some ⟨30, "new", true, 5, some 30⟩,
           { users := [], taskLists := [],
             todos := [⟨30, "new", true, 5, some 30⟩] }) :=
  (updateToDo_sets_whole_argument dbTd uA ⟨30, some "new", true⟩
    ⟨30, "old", false, 5, none⟩ rfl).1

/-! ### Reachable store states and the member-set invariant (C9) -/

/-- The empty store at server start. -/
def dbEmpty : DB := { users := [], taskLists := [], todos := [] }

/-- The member-set invariant: every stored task list has members. -/
def MembersNonempty (db : DB) : Prop :=
  ∀ tl ∈ db.taskLists, tl.userIds ≠ []

theorem pres_signUp {db : DB} (hash : String → String) (newId : Nat)
    (email pw nm : String) (avatar : Option String)
    (hP : MembersNonempty db) :
    MembersNonempty (signUp db hash newId email pw nm avatar).2 := hP

theorem pres_createTaskList {db db2 : DB} {user : Option UserRec}
    {title createdAt : String} {newId : Nat} {r : TaskListRec}
    (hok : createTaskList db user title createdAt newId = .ok (r, db2))
    (hP : MembersNonempty db) : MembersNonempty db2 := by
  cases user with
  | none => simp [createTaskList] at hok
  | some u0 =>
    simp only [createTaskList, Except.ok.injEq, Prod.mk.injEq] at hok
    obtain ⟨-, h2⟩ := hok
    subst h2
    intro tl htl
    rcases List.mem_append.mp htl with h | h
    · exact hP tl h
    · rw [List.mem_singleton] at h
      subst h
      simp

theorem pres_updateTaskList {db db2 : DB} {user : Option UserRec} {id : Nat}
    {title : String} {r : Option TaskListRec}
    (hok : updateTaskList db user id title = .ok (r, db2))
    (hP : MembersNonempty db) : MembersNonempty db2 := by
  cases user with
  | none => simp [updateTaskList] at hok
  | some u0 =>
    simp only [updateTaskList, Except.ok.injEq, Prod.mk.injEq] at hok
    obtain ⟨-, h2⟩ := hok
    subst h2
    intro tl htl
    rcases mem_updateFirst htl with h | ⟨x, hx, hxe⟩
    · exact hP tl h
    · subst hxe
      exact hP x hx

theorem pres_addUserToTaskList {db db2 : DB} {user : Option UserRec}
    {taskListId userId : Nat} {r : Option TaskListRec}
    (hok : addUserToTaskList db user taskListId userId = .ok (r, db2))
    (hP : MembersNonempty db) : MembersNonempty db2 := by
  cases user with
  | none => simp [addUserToTaskList] at hok
  | some u0 =>
    cases hfind : db.taskLists.find? (fun tl => tl._id == taskListId) with
    | none =>
      simp only [addUserToTaskList, hfind, Except.ok.injEq,
        Prod.mk.injEq] at hok
      obtain ⟨-, h2⟩ := hok
      subst h2
      exact hP
    | some tl0 =>
      by_cases hc : (tl0.userIds.find? (fun dbId => dbId == userId)).isSome
      · simp [addUserToTaskList, hfind, hc] at hok
      · simp only [addUserToTaskList, hfind, hc, Bool.false_eq_true,
          if_false, Except.ok.injEq, Prod.mk.injEq] at hok
        obtain ⟨-, h2⟩ := hok
        subst h2
        intro tl htl
        rcases mem_updateFirst htl with h | ⟨x, hx, hxe⟩
        · exact hP tl h
        · subst hxe
          simp

theorem pres_deleteTaskList {db db2 : DB} {user : Option UserRec} {id : Nat}
    {r : Bool} (hok : deleteTaskList db user id = .ok (r, db2))
    (hP : MembersNonempty db) : MembersNonempty db2 := by
  cases user with
  | none => simp [deleteTaskList] at hok
  | some u0 =>
    simp only [deleteTaskList, Except.ok.injEq, Prod.mk.injEq] at hok
    obtain ⟨-, h2⟩ := hok
    subst h2
    intro tl htl
    exact hP tl (List.mem_filter.mp htl).1

theorem pres_createToDo {db db2 : DB} {user : Option UserRec}
    {content : String} {taskListId newId : Nat} {r : ToDoRec}
    (hok : createToDo db user content taskListId newId = .ok (r, db2))
    (hP : MembersNonempty db) : MembersNonempty db2 := by
  cases user with
  | none => simp [createToDo] at hok
  | some u0 =>
    simp only [createToDo, Except.ok.injEq, Prod.mk.injEq] at hok
    obtain ⟨-, h2⟩ := hok
    subst h2
    exact hP

theorem pres_updateToDo {db db2 : DB} {user : Option UserRec}
    {data : UpdateToDoData} {r : Option ToDoRec}
    (hok : updateToDo db user data = .ok (r, db2))
    (hP : MembersNonempty db) : MembersNonempty db2 := by
  cases user with
  | none => simp [updateToDo] at hok
  | some u0 =>
    simp only [updateToDo, Except.ok.injEq, Prod.mk.injEq] at hok
    obtain ⟨-, h2⟩ := hok
    subst h2
    exact hP

theorem pres_deleteToDo {db db2 : DB} {user : Option UserRec} {id : Nat}
    {r : Bool} (hok : deleteToDo db user id = .ok (r, db2))
    (hP : MembersNonempty db) : MembersNonempty db2 := by
  cases user with
  | none => simp [deleteToDo] at hok
  | some u0 =>
    simp only [deleteToDo, Except.ok.injEq, Prod.mk.injEq] at hok
    obtain ⟨-, h2⟩ := hok
    subst h2
    exact hP

/-- The store states reachable from the empty store through the mutation
handlers (queries and field resolvers perform no writes). -/
inductive Reachable : DB → Prop where
  | empty : Reachable dbEmpty
  | sign_up {db : DB} (h : Reachable db) (hash : String → String)
      (newId : Nat) (email pw nm : String) (avatar : Option String) :
      Reachable (signUp db hash newId email pw nm avatar).2
  | create_task_list {db db2 : DB} {r : TaskListRec} (h : Reachable db)
      (user : Option UserRec) (title createdAt : String) (newId : Nat)
      (hok : createTaskList db user title createdAt newId = .ok (r, db2)) :
      Reachable db2
  | update_task_list {db db2 : DB} {r : Option TaskListRec}
      (h : Reachable db) (user : Option UserRec) (id : Nat) (title : String)
      (hok : updateTaskList db user id title = .ok (r, db2)) :
      Reachable db2
  | add_user_to_task_list {db db2 : DB} {r : Option TaskListRec}
      (h : Reachable db) (user : Option UserRec) (taskListId userId : Nat)
      (hok : addUserToTaskList db user taskListId userId = .ok (r, db2)) :
      Reachable db2
  | delete_task_list {db db2 : DB} {r : Bool} (h : Reachable db)
      (user : Option UserRec) (id : Nat)
      (hok : deleteTaskList db user id = .ok (r, db2)) :
      Reachable db2
  | create_to_do {db db2 : DB} {r : ToDoRec} (h : Reachable db)
      (user : Option UserRec) (content : String) (taskListId newId : Nat)
      (hok : createToDo db user content taskListId newId = .ok (r, db2)) :
      Reachable db2
  | update_to_do {db db2 : DB} {r : Option ToDoRec} (h : Reachable db)
      (user : Option UserRec) (data : UpdateToDoData)
      (hok : updateToDo db user data = .ok (r, db2)) :
      Reachable db2
  | delete_to_do {db db2 : DB} {r : Bool} (h : Reachable db)
      (user : Option UserRec) (id : Nat)
      (hok : deleteToDo db user id = .ok (r, db2)) :
      Reachable db2

/-- C9: in every reachable store state, every task list has a non-empty
member set — `createTaskList` starts the member set with the creator,
`addUserToTaskList` only appends, and no operation removes members. -/
theorem reachable_members_nonempty {db : DB} (h : Reachable db) :
    MembersNonempty db := by
  induction h with
  | empty => intro tl htl; cases htl
  | sign_up h hash newId email pw nm avatar ih =>
    exact pres_signUp hash newId email pw nm avatar ih
  | create_task_list h user title createdAt newId hok ih =>
    exact pres_createTaskList hok ih
  | update_task_list h user id title hok ih =>
    exact pres_updateTaskList hok ih
  | add_user_to_task_list h user taskListId userId hok ih =>
    exact pres_addUserToTaskList hok ih
  | delete_task_list h user id hok ih =>
    exact pres_deleteTaskList hok ih
  | create_to_do h user content taskListId newId hok ih =>
    exact pres_createToDo hok ih
  | update_to_do h user data hok ih =>
    exact pres_updateToDo hok ih
  | delete_to_do h user id hok ih =>
    exact pres_deleteToDo hok ih

/-- C9 witness: the store reached by creating one list as `uA` has that
list with the non-empty member set `[7]`. -/
theorem reachable_members_nonempty_witness :
    ({ _id := 5, title := "w", createdAt := "ts",
       userIds := [7] } : TaskListRec).userIds ≠ [] :=
  reachable_members_nonempty
    (Reachable.create_task_list Reachable.empty (some uA) "w" "ts" 5 rfl)
    ⟨5, "w", "ts", [7]⟩ (by simp [uA])
